import Mathlib

/-!
Shallow embedding of the WASM threading stubs

Source files embedded here:

* `src/wasm/include/boost/thread.hpp`: the stub `boost::thread_group`,
  `boost::this_thread::interruption_point`, `boost::mutex`,
  `boost::recursive_mutex` and `boost::unique_lock<Mutex>`;
* `src/wasm/include/libslicer.h`: `Slic3r::append_to`.

Objects are embedded as values and member functions as state-passing
functions: a `void` member function maps the object state to the new object
state, a member function returning a value returns the value together with
the new state.  A call that can throw returns `Except`.
-/

namespace boost

/-! ## Mutexes (thread.hpp, lines 119-137) -/

/-- The `Mutex` template parameter of `unique_lock`: any type offering
`lock()` and `unlock()`, the only two members `unique_lock` calls. -/
class Mutex (σ : Type) where
  /-- The call `m.lock()`. -/
  lock : σ → σ
  /-- The call `m.unlock()`. -/
  unlock : σ → σ

/-- The class `boost::mutex` of the stub: it has no data members. -/
structure mutex where
  deriving DecidableEq

/-- The member `void lock() {}`. -/
def mutex.lock (m : mutex) : mutex := m

/-- The member `void unlock() {}`. -/
def mutex.unlock (m : mutex) : mutex := m

/-- The member `bool try_lock() { return true; }`. -/
def mutex.try_lock (m : mutex) : Bool × mutex := (true, m)

/-- The class `boost::recursive_mutex` of the stub: it has no data members
(no owner, no depth). -/
structure recursive_mutex where
  deriving DecidableEq

/-- The member `void lock() {}`. -/
def recursive_mutex.lock (m : recursive_mutex) : recursive_mutex := m

/-- The member `void unlock() {}`. -/
def recursive_mutex.unlock (m : recursive_mutex) : recursive_mutex := m

/-- The member `bool try_lock() { return true; }`. -/
def recursive_mutex.try_lock (m : recursive_mutex) : Bool × recursive_mutex := (true, m)

instance : Mutex mutex where
  lock := mutex.lock
  unlock := mutex.unlock

instance : Mutex recursive_mutex where
  lock := recursive_mutex.lock
  unlock := recursive_mutex.unlock

/-- One call made on a mutex object. -/
inductive MutexCall where
  | lock
  | unlock
  | try_lock
  deriving DecidableEq

/-- The state of a `boost::mutex` after one call (the boolean returned by
`try_lock()` is discarded). -/
def mutex.call (m : mutex) : MutexCall → mutex
  | .lock => m.lock
  | .unlock => m.unlock
  | .try_lock => m.try_lock.2

/-- The state of a `boost::mutex` after a sequence of calls, first call first. -/
def mutex.calls (m : mutex) (cs : List MutexCall) : mutex :=
  cs.foldl mutex.call m

/-- The state of a `boost::recursive_mutex` after one call. -/
def recursive_mutex.call (m : recursive_mutex) : MutexCall → recursive_mutex
  | .lock => m.lock
  | .unlock => m.unlock
  | .try_lock => m.try_lock.2

/-- The state of a `boost::recursive_mutex` after a sequence of calls. -/
def recursive_mutex.calls (m : recursive_mutex) (cs : List MutexCall) : recursive_mutex :=
  cs.foldl recursive_mutex.call m

/-- An instrumented mutex used as the `Mutex` argument of `unique_lock`: it
only counts the `lock()` and `unlock()` calls it receives. -/
structure CountingMutex where
  lock_calls : Nat
  unlock_calls : Nat
  deriving DecidableEq

/-- The call `lock()` on the instrumented mutex: one more counted lock. -/
def CountingMutex.lock (m : CountingMutex) : CountingMutex :=
  { m with lock_calls := m.lock_calls + 1 }

/-- The call `unlock()` on the instrumented mutex: one more counted unlock. -/
def CountingMutex.unlock (m : CountingMutex) : CountingMutex :=
  { m with unlock_calls := m.unlock_calls + 1 }

instance : Mutex CountingMutex where
  lock := CountingMutex.lock
  unlock := CountingMutex.unlock

/-! ## unique_lock (thread.hpp, lines 139-167) -/

/-- The class template `boost::unique_lock<Mutex>`.  The member `m_` is a
reference to the mutex; the embedding carries the state of the referenced
mutex in the lock value, so that every call made through the reference is
visible in `m_`. -/
structure unique_lock (σ : Type) where
  m_ : σ
  owns_ : Bool
  deriving DecidableEq

/-- The constructor `unique_lock(Mutex& m) : m_(m), owns_(true) { m_.lock(); }`. -/
def unique_lock.ctor {σ : Type} [Mutex σ] (m : σ) : unique_lock σ :=
  { m_ := Mutex.lock m, owns_ := true }

/-- The destructor `~unique_lock() { if (owns_) { m_.unlock(); } }`; the
result is the state in which the referenced mutex is left. -/
def unique_lock.dtor {σ : Type} [Mutex σ] (l : unique_lock σ) : σ :=
  if l.owns_ then Mutex.unlock l.m_ else l.m_

/-- The member `void lock() { m_.lock(); owns_ = true; }`. -/
def unique_lock.lock {σ : Type} [Mutex σ] (l : unique_lock σ) : unique_lock σ :=
  { m_ := Mutex.lock l.m_, owns_ := true }

/-- The member `void unlock() { m_.unlock(); owns_ = false; }`. -/
def unique_lock.unlock {σ : Type} [Mutex σ] (l : unique_lock σ) : unique_lock σ :=
  { m_ := Mutex.unlock l.m_, owns_ := false }

/-- The member `bool owns_lock() const { return owns_; }`. -/
def unique_lock.owns_lock {σ : Type} (l : unique_lock σ) : Bool := l.owns_

/-- The ways a guarded block can end. -/
inductive BlockExit where
  | normal_return
  | early_return
  | propagated_failure
  deriving DecidableEq

/-- A guarded block `{ unique_lock<Mutex> l(m); ... }`: the lock is
constructed over `m`, the body makes either no manual call or one manual early
`l.unlock()`, and the block ends in the way `e`.  C++ runs the destructor of
the local `l` on each of the three exit paths (scope exit for the two returns,
stack unwinding for the failure).  The result is the final mutex state and the
way the block ended, which is passed on to the caller. -/
def guarded_block {σ : Type} [Mutex σ] (m : σ) (manual_unlock : Bool) (e : BlockExit) :
    σ × BlockExit :=
  let l := unique_lock.ctor m
  let l := if manual_unlock then l.unlock else l
  match e with
  | .normal_return => (l.dtor, .normal_return)
  | .early_return => (l.dtor, .early_return)
  | .propagated_failure => (l.dtor, .propagated_failure)

/-- One manual call made on a `unique_lock` during its lifetime. -/
inductive LockOp where
  | lock
  | unlock
  deriving DecidableEq

/-- The lock after one manual call. -/
def unique_lock.op {σ : Type} [Mutex σ] (l : unique_lock σ) : LockOp → unique_lock σ
  | .lock => l.lock
  | .unlock => l.unlock

/-- The lock after a sequence of manual calls, first call first. -/
def unique_lock.ops {σ : Type} [Mutex σ] (l : unique_lock σ) (os : List LockOp) :
    unique_lock σ :=
  os.foldl unique_lock.op l

/-- Well-formedness of a sequence of manual calls made from a state whose
`owns_lock()` is `owns`: `unlock()` only while `owns_lock()` is true and
`lock()` only while it is false. -/
def well_formed : Bool → List LockOp → Bool
  | _, [] => true
  | owns, .lock :: os => !owns && well_formed true os
  | owns, .unlock :: os => owns && well_formed false os

/-! ## Threads and thread groups (thread.hpp, lines 11-35 and 50-76) -/

/-- The execution state of a work unit (the thread of execution started for
it), as seen at one instant. -/
inductive Progress where
  | Submitted
  | Running
  | Completed
  deriving DecidableEq

/-- What a call can raise: `std::system_error` (from `std::thread::detach`),
`std::terminate` (from destroying a joinable `std::thread`), or the
cancellation signal `boost::thread_interrupted`. -/
inductive Failure where
  | system_error
  | terminate
  | thread_interrupted
  deriving DecidableEq

/-- The type `boost::thread`, which the stub declares as `std::thread`
(line 50).  `std::thread` is the C++ standard library's, not the
repository's; the embedding keeps whether the handle is joinable, and the
execution state that the thread of execution it stands for has at the moment
the handle is handed over.  That state is the scheduler's doing, so it is an
arbitrary input here, and the thread of execution goes on changing it
concurrently with whatever the caller does next. -/
structure thread where
  joinable : Bool
  progress : Progress
  deriving DecidableEq

/-- The library call `std::thread::detach()`: it throws `std::system_error`
when the handle is not joinable; otherwise the handle stops being joinable and
the thread of execution goes on independently (its state is not touched and
it is not waited for). -/
def thread.detach (t : thread) : Except Failure thread :=
  if t.joinable then .ok { t with joinable := false } else .error .system_error

/-- The expression `delete t` on a `std::thread*`: the destructor calls
`std::terminate` when the handle is still joinable; otherwise the handle is
destroyed, and the thread of execution is neither waited for nor stopped. -/
def thread.delete (t : thread) : Except Failure Unit :=
  if t.joinable then .error .terminate else .ok ()

/-- The class `boost::thread_group` of the stub: it has no data members. -/
structure thread_group where
  deriving DecidableEq

/-- The member
`void add_thread(std::thread* t) { if (t) { t->detach(); delete t; } }`.
A null pointer is `none`.  The member returns nothing: the result is the
group after the call, or the failure the call raises. -/
def thread_group.add_thread (g : thread_group) (t : Option thread) :
    Except Failure thread_group :=
  match t with
  | none => .ok g
  | some th => do
    let th ← th.detach
    th.delete
    .ok g

/-- The member `void join_all() { }`. -/
def thread_group.join_all (g : thread_group) : thread_group := g

/-- The member `void interrupt_all() { }`. -/
def thread_group.interrupt_all (g : thread_group) : thread_group := g

/-- The member `std::size_t size() const { return 0; }`. -/
def thread_group.size (_g : thread_group) : Nat := 0

/-- The function `boost::this_thread::interruption_point()`, whose body is
empty: it returns normally and raises nothing. -/
def this_thread.interruption_point : Except Failure Unit := .ok ()

/-- One call made by the engine on a thread group or on the thread-local
control. -/
inductive GroupCall where
  | add_thread (t : Option thread)
  | join_all
  | interrupt_all
  | interruption_point
  deriving DecidableEq

/-- The group after one call, or the failure the call raises. -/
def thread_group.call (g : thread_group) : GroupCall → Except Failure thread_group
  | .add_thread t => g.add_thread t
  | .join_all => .ok g.join_all
  | .interrupt_all => .ok g.interrupt_all
  | .interruption_point => do
    this_thread.interruption_point
    .ok g

/-- The group after a sequence of calls, first call first; a failure raised by
a call ends the sequence. -/
def thread_group.calls (g : thread_group) : List GroupCall → Except Failure thread_group
  | [] => .ok g
  | c :: cs => do
    let g ← g.call c
    g.calls cs

/-- A call whose argument is a work unit as the engine submits it: a null
pointer or a joinable handle (a `new boost::thread(f)` is joinable). -/
def GroupCall.submittable : GroupCall → Bool
  | .add_thread (some t) => t.joinable
  | _ => true

/-- The group after `add_thread` has been called on each of the work units of
`ts` in turn, or the failure raised on the way. -/
def thread_group.add_threads (g : thread_group) : List thread → Except Failure thread_group
  | [] => .ok g
  | t :: ts => do
    let g ← g.add_thread (some t)
    g.add_threads ts

end boost

namespace Slic3r

/-! ## append_to (libslicer.h, lines 68-72) -/

/-- The library call `v.insert(pos, first, last)` of `std::vector`, with the
iterator `pos` given as an index into `v` and the range `[first, last)` given
as the list of its elements: the elements of the range are inserted before
position `pos`. -/
def vector_insert {T : Type} (v : List T) (pos : Nat) (range : List T) : List T :=
  v.take pos ++ range ++ v.drop pos

/-- The function
`append_to(std::vector<T> &dst, const std::vector<T> &src)`, whose body is
`dst.insert(dst.end(), src.begin(), src.end());`.  The two vectors are
distinct objects; the result is the pair of their states after the call. -/
def append_to {T : Type} (dst src : List T) : List T × List T :=
  (vector_insert dst dst.length src, src)

end Slic3r

namespace boost

/-! ## Helper lemmas on `unique_lock` over the instrumented mutex -/

theorem ops_nil {σ : Type} [Mutex σ] (l : unique_lock σ) : l.ops [] = l := rfl

theorem ops_cons {σ : Type} [Mutex σ] (l : unique_lock σ) (o : LockOp) (os : List LockOp) :
    l.ops (o :: os) = (l.op o).ops os := rfl

theorem ops_concat {σ : Type} [Mutex σ] (l : unique_lock σ) (os : List LockOp) (o : LockOp) :
    l.ops (os ++ [o]) = (l.ops os).op o := by
  simp [unique_lock.ops, List.foldl_append]

theorem well_formed_take (n : Nat) :
    ∀ (b : Bool) (os : List LockOp), well_formed b os = true → well_formed b (os.take n) = true := by
  induction n with
  | zero => intro b os _; simp [well_formed]
  | succ k ih =>
    intro b os h
    cases os with
    | nil => simp [well_formed]
    | cons o os =>
      cases o <;> simp only [List.take_succ_cons, well_formed, Bool.and_eq_true] at h ⊢ <;>
        exact ⟨h.1, ih _ _ h.2⟩

theorem ops_balance (os : List LockOp) :
    ∀ l : unique_lock CountingMutex, well_formed l.owns_ os = true →
      (l.ops os).m_.lock_calls + l.m_.unlock_calls + (if l.owns_ then 1 else 0) =
        (l.ops os).m_.unlock_calls + l.m_.lock_calls + (if (l.ops os).owns_ then 1 else 0) := by
  induction os with
  | nil => intro l _; simp only [ops_nil]; omega
  | cons o os ih =>
    intro l h
    rw [ops_cons]
    cases o with
    | lock =>
      simp only [well_formed, Bool.and_eq_true, Bool.not_eq_true'] at h
      have := ih (l.op .lock) (by simpa [unique_lock.op, unique_lock.lock] using h.2)
      simp only [unique_lock.op, unique_lock.lock, Mutex.lock, CountingMutex.lock] at this ⊢
      simp only [h.1] at this ⊢
      simp only [if_true] at this
      simp only [Bool.false_eq_true, if_false]
      omega
    | unlock =>
      simp only [well_formed, Bool.and_eq_true] at h
      have := ih (l.op .unlock) (by simpa [unique_lock.op, unique_lock.unlock] using h.2)
      simp only [unique_lock.op, unique_lock.unlock, Mutex.unlock, CountingMutex.unlock] at this ⊢
      simp only [h.1] at this ⊢
      simp only [Bool.false_eq_true, if_false] at this
      simp only [if_true]
      omega

/-! ## Scoped lock: release exactly once (C1) -/

/-- C1: for a `unique_lock` over a mutex that counts its `lock()`/`unlock()`
calls, for every way the guarded block ends and with either no manual call or
one manual early `unlock()`: the constructor calls the mutex's `lock()` exactly
once (and `unlock()` not at all) and sets `owns_lock()` to true; by the end of
destruction `lock()` has been called once and `unlock()` exactly once in total;
the block ends the way it ended; and the destructor calls `unlock()` if and
only if `owns_lock()` is still true. -/
theorem unique_lock_releases_exactly_once (m : CountingMutex) (manual_unlock : Bool)
    (e : BlockExit) :
    (unique_lock.ctor m).m_.lock_calls = m.lock_calls + 1 ∧
    (unique_lock.ctor m).m_.unlock_calls = m.unlock_calls ∧
    (unique_lock.ctor m).owns_lock = true ∧
    (guarded_block m manual_unlock e).1.lock_calls = m.lock_calls + 1 ∧
    (guarded_block m manual_unlock e).1.unlock_calls = m.unlock_calls + 1 ∧
    (guarded_block m manual_unlock e).2 = e ∧
    (∀ l : unique_lock CountingMutex,
      l.dtor.lock_calls = l.m_.lock_calls ∧
      (l.dtor.unlock_calls = l.m_.unlock_calls + 1 ↔ l.owns_lock = true) ∧
      (l.dtor.unlock_calls = l.m_.unlock_calls ↔ l.owns_lock = false)) := by
  refine ⟨rfl, rfl, rfl, ?_, ?_, ?_, ?_⟩
  · cases manual_unlock <;> cases e <;> rfl
  · cases manual_unlock <;> cases e <;> rfl
  · cases manual_unlock <;> cases e <;> rfl
  · rintro ⟨m', o⟩
    cases o <;>
      simp [unique_lock.dtor, unique_lock.owns_lock, Mutex.unlock, CountingMutex.unlock]

/-! ## Manual lock/unlock sequences on a scoped lock (C9) -/

/-- C9: for every finite sequence `os` of manual `lock()`/`unlock()` calls on a
`unique_lock` constructed over a counting mutex `m`: `owns_lock()` is true
exactly when the most recent operation was the construction (no manual call
yet) or a `lock()`; if the sequence is well-formed, then after every prefix of
it the number of mutex `unlock()` calls made since `m` does not exceed the
number of mutex `lock()` calls made since `m`, and after destruction the two
numbers are equal; and the manual `unlock()` is unguarded: on a lock whose
`owns_lock()` is false it still calls the mutex's `unlock()`. -/
theorem unique_lock_manual_sequences (m : CountingMutex) (os : List LockOp) :
    (((unique_lock.ctor m).ops os).owns_lock = true ↔
      (os.getLast? = none ∨ os.getLast? = some LockOp.lock)) ∧
    (well_formed true os = true →
      (∀ n : Nat,
        ((unique_lock.ctor m).ops (os.take n)).m_.unlock_calls + m.lock_calls ≤
          ((unique_lock.ctor m).ops (os.take n)).m_.lock_calls + m.unlock_calls) ∧
      ((unique_lock.ctor m).ops os).dtor.unlock_calls + m.lock_calls =
        ((unique_lock.ctor m).ops os).dtor.lock_calls + m.unlock_calls) ∧
    (∀ m' : CountingMutex,
      (unique_lock.unlock { m_ := m', owns_ := false }).m_.unlock_calls = m'.unlock_calls + 1 ∧
      (unique_lock.unlock { m_ := m', owns_ := false }).m_.lock_calls = m'.lock_calls) := by
  refine ⟨?_, ?_, fun m' => ⟨rfl, rfl⟩⟩
  · rcases List.eq_nil_or_concat os with h | ⟨os', o, h⟩
    · subst h; simp [ops_nil, unique_lock.ctor, unique_lock.owns_lock]
    · subst h
      rw [List.concat_eq_append, ops_concat]
      cases o <;>
        simp [unique_lock.op, unique_lock.lock, unique_lock.unlock, unique_lock.owns_lock]
  · intro h
    constructor
    · intro n
      have hb := ops_balance (os.take n) (unique_lock.ctor m) (well_formed_take n _ _ h)
      simp only [unique_lock.ctor, Mutex.lock, CountingMutex.lock, if_true] at hb ⊢
      split at hb <;> omega
    · have hb := ops_balance os (unique_lock.ctor m) h
      simp only [unique_lock.ctor, Mutex.lock, CountingMutex.lock, if_true] at hb ⊢
      simp only [unique_lock.dtor]
      split at hb
      · rename_i ho
        simp only [ho, if_true, Mutex.unlock, CountingMutex.unlock]
        omega
      · rename_i ho
        simp only [ho, Bool.false_eq_true, if_false]
        omega

/-- Witness for C9 on the well-formed sequence `unlock(); lock(); unlock()` over
a fresh counting mutex: the counts after the prefix of length 2 and after
destruction. -/
theorem unique_lock_manual_sequences_witness :
    well_formed true [LockOp.unlock, LockOp.lock, LockOp.unlock] = true ∧
    ((unique_lock.ctor (⟨0, 0⟩ : CountingMutex)).ops
        ([LockOp.unlock, LockOp.lock, LockOp.unlock].take 2)).m_.unlock_calls + 0 ≤
      ((unique_lock.ctor (⟨0, 0⟩ : CountingMutex)).ops
        ([LockOp.unlock, LockOp.lock, LockOp.unlock].take 2)).m_.lock_calls + 0 ∧
    ((unique_lock.ctor (⟨0, 0⟩ : CountingMutex)).ops
        [LockOp.unlock, LockOp.lock, LockOp.unlock]).dtor.unlock_calls + 0 =
      ((unique_lock.ctor (⟨0, 0⟩ : CountingMutex)).ops
        [LockOp.unlock, LockOp.lock, LockOp.unlock]).dtor.lock_calls + 0 :=
  ⟨by decide,
   ((unique_lock_manual_sequences ⟨0, 0⟩ [LockOp.unlock, LockOp.lock, LockOp.unlock]).2.1
      (by decide)).1 2,
   ((unique_lock_manual_sequences ⟨0, 0⟩ [LockOp.unlock, LockOp.lock, LockOp.unlock]).2.1
      (by decide)).2⟩

/-! ## Helper lemmas on the thread group -/

theorem add_thread_joinable (g : thread_group) (t : thread) (h : t.joinable = true) :
    g.add_thread (some t) = .ok g := by
  simp [thread_group.add_thread, thread.detach, thread.delete, h, bind, Except.bind]

theorem add_thread_not_joinable (g : thread_group) (t : thread) (h : t.joinable = false) :
    g.add_thread (some t) = .error .system_error := by
  simp [thread_group.add_thread, thread.detach, h, bind, Except.bind]

theorem call_submittable (g : thread_group) (c : GroupCall) (h : c.submittable = true) :
    g.call c = .ok g := by
  cases c with
  | add_thread t =>
    cases t with
    | none => rfl
    | some t =>
      simp only [GroupCall.submittable] at h
      simp [thread_group.call, add_thread_joinable g t h, bind, Except.bind]
  | join_all => rfl
  | interrupt_all => rfl
  | interruption_point => rfl

theorem call_not_interrupted (g : thread_group) (c : GroupCall) :
    g.call c = .ok g ∨ g.call c = .error .system_error := by
  cases hc : c.submittable
  · right
    cases c with
    | add_thread t =>
      cases t with
      | none => simp [GroupCall.submittable] at hc
      | some t =>
        simp only [GroupCall.submittable] at hc
        simp [thread_group.call, add_thread_not_joinable g t hc, bind, Except.bind]
    | join_all => simp [GroupCall.submittable] at hc
    | interrupt_all => simp [GroupCall.submittable] at hc
    | interruption_point => simp [GroupCall.submittable] at hc
  · exact Or.inl (call_submittable g c hc)

theorem calls_cons_ok (g : thread_group) (c : GroupCall) (cs : List GroupCall)
    (h : g.call c = .ok g) : g.calls (c :: cs) = g.calls cs := by
  simp [thread_group.calls, h, bind, Except.bind]

theorem calls_submittable (g : thread_group) (cs : List GroupCall)
    (h : ∀ c ∈ cs, c.submittable = true) : g.calls cs = .ok g := by
  induction cs with
  | nil => rfl
  | cons c cs ih =>
    rw [calls_cons_ok g c cs (call_submittable g c (h c (List.mem_cons_self c cs)))]
    exact ih (fun d hd => h d (List.mem_cons_of_mem c hd))

theorem calls_not_interrupted (g : thread_group) (cs : List GroupCall) :
    g.calls cs = .ok g ∨ g.calls cs = .error .system_error := by
  induction cs with
  | nil => exact Or.inl rfl
  | cons c cs ih =>
    rcases call_not_interrupted g c with h | h
    · rw [calls_cons_ok g c cs h]; exact ih
    · right; simp [thread_group.calls, h, bind, Except.bind]

theorem add_threads_joinable (g : thread_group) (ts : List thread)
    (h : ∀ t ∈ ts, t.joinable = true) : g.add_threads ts = .ok g := by
  induction ts with
  | nil => rfl
  | cons t ts ih =>
    simp only [thread_group.add_threads,
      add_thread_joinable g t (h t (List.mem_cons_self t ts)), bind, Except.bind]
    exact ih (fun d hd => h d (List.mem_cons_of_mem t hd))

/-! ## Thread group: size after join_all (C2) -/

/-- C2: for every sequence `cs` of `add_thread`, `join_all` and `interrupt_all`
calls on a thread group (the empty sequence included) whose work units are
submittable, the sequence followed by `join_all()` returns, and `size()` called
right after that `join_all()` is 0; and on the group state `g` whatsoever
`size()` right after `join_all()` is 0. -/
theorem size_zero_after_join_all (g : thread_group) (cs : List GroupCall)
    (h : ∀ c ∈ cs, c.submittable = true) :
    (g.calls (cs ++ [GroupCall.join_all])).map thread_group.size = .ok 0 ∧
    g.join_all.size = 0 := by
  have hc : g.calls (cs ++ [GroupCall.join_all]) = .ok g := by
    apply calls_submittable
    intro c hc
    rcases List.mem_append.mp hc with hc | hc
    · exact h c hc
    · rw [List.mem_singleton.mp hc]; rfl
  rw [hc]
  exact ⟨rfl, rfl⟩

/-- Witness for C2 on the sequence
`add_thread(running unit); interrupt_all(); join_all(); add_thread(nullptr)`. -/
theorem size_zero_after_join_all_witness :
    (thread_group.calls {}
        ([GroupCall.add_thread (some ⟨true, Progress.Running⟩), GroupCall.interrupt_all,
          GroupCall.join_all, GroupCall.add_thread none] ++ [GroupCall.join_all])).map
      thread_group.size = .ok 0 ∧
    (thread_group.join_all {}).size = 0 :=
  size_zero_after_join_all {}
    [GroupCall.add_thread (some ⟨true, Progress.Running⟩), GroupCall.interrupt_all,
      GroupCall.join_all, GroupCall.add_thread none] (by decide)

/-! ## Thread group: add_thread does not run the work unit (C3) -/

/-- C4, counterexample: after one `add_thread` call with a non-null work unit
and no `join_all`, the call has returned and `size()` is 0, not 1. -/
theorem size_not_one_after_one_add :
    (thread_group.add_threads {} [⟨true, Progress.Running⟩]).map thread_group.size = .ok 0 ∧
    (thread_group.add_threads {} [⟨true, Progress.Running⟩]).map thread_group.size ≠ .ok 1 := by
  refine ⟨rfl, ?_⟩
  show (Except.ok 0 : Except Failure Nat) ≠ .ok 1
  simp

/-- C4, amended: for every thread group and every list `ts` of joinable work
units (k = `ts.length` of them, k ≥ 0), the k `add_thread` calls return and
`size()` afterwards is 0: the stub group keeps no work unit. -/
theorem size_zero_after_adds (g : thread_group) (ts : List thread)
    (h : ∀ t ∈ ts, t.joinable = true) :
    (g.add_threads ts).map thread_group.size = .ok 0 := by
  rw [add_threads_joinable g ts h]
  rfl

/-- Witness for the amended C4 with k = 2 work units. -/
theorem size_zero_after_adds_witness :
    (thread_group.add_threads {} [⟨true, Progress.Running⟩, ⟨true, Progress.Submitted⟩]).map
      thread_group.size = .ok 0 :=
  size_zero_after_adds {} [⟨true, Progress.Running⟩, ⟨true, Progress.Submitted⟩] (by decide)

/-! ## Recursive mutex (C5) -/

/-- C5, counterexample: with N = 1 and m = 0 < N, after one `lock()` and no
`unlock()` on a `recursive_mutex`, `try_lock()` does not report failure. -/
theorem recursive_mutex_try_lock_while_locked :
    ¬ (recursive_mutex.try_lock
        (recursive_mutex.unlock^[0] (recursive_mutex.lock^[1] {}))).1 = false := by
  decide

/-- C5, amended: the stub `recursive_mutex` keeps no depth and no owner: for
every N and every m, after N `lock()` calls and m `unlock()` calls `try_lock()`
reports success; in particular it reports success after the N-th `unlock()`. -/
theorem recursive_mutex_try_lock_always_succeeds (r : recursive_mutex) (N m : Nat) :
    (recursive_mutex.try_lock (recursive_mutex.unlock^[m] (recursive_mutex.lock^[N] r))).1 = true ∧
    (recursive_mutex.try_lock (recursive_mutex.unlock^[N] (recursive_mutex.lock^[N] r))).1 = true :=
  ⟨rfl, rfl⟩

/-! ## Plain mutex (C6) -/

/-- C6, counterexample: after a `lock()` on a `boost::mutex` with no `unlock()`,
`try_lock()` does not report failure. -/
theorem mutex_try_lock_while_locked :
    ¬ (mutex.try_lock (mutex.lock {})).1 = false := by
  decide

/-- C6, amended: the stub `boost::mutex` keeps no locked state: after a
`lock()` (or a successful `try_lock()`) with no `unlock()` in between, a second
`lock()` returns and leaves the mutex as it was, and `try_lock()` reports
success. -/
theorem mutex_second_acquisition_succeeds (m : mutex) :
    m.lock.lock = m.lock ∧
    (m.lock.try_lock).1 = true ∧
    (m.try_lock).1 = true ∧
    (m.try_lock).2.lock = (m.try_lock).2 ∧
    ((m.try_lock).2.try_lock).1 = true :=
  ⟨rfl, rfl, rfl, rfl, rfl⟩

/-! ## Cancellation has no effect (C7) -/

/-- C7: on the stub backend `interruption_point()` returns normally: called
directly, called in any group state, and called after any number n of
`interrupt_all()` calls; no sequence of calls ever raises the cancellation
signal; and `interrupt_all()` leaves the group, and so its `size()`,
unchanged. -/
theorem cancellation_has_no_effect (g : thread_group) (cs : List GroupCall) (n : Nat) :
    this_thread.interruption_point = .ok () ∧
    g.call GroupCall.interruption_point = .ok g ∧
    g.calls (List.replicate n GroupCall.interrupt_all ++ [GroupCall.interruption_point]) = .ok g ∧
    g.calls cs ≠ .error Failure.thread_interrupted ∧
    g.interrupt_all = g ∧
    g.interrupt_all.size = g.size := by
  refine ⟨rfl, rfl, ?_, ?_, rfl, rfl⟩
  · apply calls_submittable
    intro c hc
    rcases List.mem_append.mp hc with hc | hc
    · rw [(List.mem_replicate.mp hc).2]; rfl
    · rw [List.mem_singleton.mp hc]; rfl
  · rcases calls_not_interrupted g cs with h | h <;> rw [h] <;> simp

/-! ## Mutex calls never block (C8) -/

/-- C8: for `boost::mutex` and `boost::recursive_mutex`, after every sequence
`cs` of `lock()`/`unlock()`/`try_lock()` calls (a `lock()` not yet released
included), `lock()` is a no-op (it returns the state unchanged) and
`try_lock()` returns the boolean `true` and the state unchanged. -/
theorem mutex_lock_noop_try_lock_true (m : mutex) (r : recursive_mutex) (cs : List MutexCall) :
    (m.calls cs).lock = m.calls cs ∧
    (m.calls cs).try_lock = (true, m.calls cs) ∧
    (m.calls (cs ++ [MutexCall.lock])).try_lock.1 = true ∧
    (r.calls cs).lock = r.calls cs ∧
    (r.calls cs).try_lock = (true, r.calls cs) ∧
    (r.calls (cs ++ [MutexCall.lock])).try_lock.1 = true :=
  ⟨rfl, rfl, rfl, rfl, rfl, rfl⟩

end boost

namespace Slic3r

/-! ## append_to (C10) -/

/-- C10: for all vectors `dst` and `src`, `append_to(dst, src)` leaves `dst`
equal to the old `dst` followed by the elements of `src` in order, so that its
length is the sum of the two lengths and the old `dst` is an initial segment of
it, and leaves `src` unchanged; with an empty `src`, `dst` is unchanged. -/
theorem append_to_appends {T : Type} (dst src : List T) :
    (append_to dst src).1 = dst ++ src ∧
    (append_to dst src).1.length = dst.length + src.length ∧
    dst <+: (append_to dst src).1 ∧
    (append_to dst src).2 = src ∧
    (append_to dst []).1 = dst := by
  have h : ∀ s : List T, (append_to dst s).1 = dst ++ s := by
    intro s
    simp [append_to, vector_insert]
  refine ⟨h src, ?_, ?_, rfl, ?_⟩
  · rw [h src, List.length_append]
  · rw [h src]; exact ⟨src, rfl⟩
  · rw [h []]; simp

end Slic3r
